import Mathlib

/-!
Verification development for the Crossline-cpp line-editing engine
(src/crossline.cpp, src/crossline.h).

The C++ code is shallowly embedded: `std::string` values become `List Char`
(or `String` where entries are only compared and searched), machine `int`
values become `Nat`/`Int` with the source's guards transcribed, and the
interactive read loop becomes an explicit step function over an editing
state driven by a list of decoded key events.  Terminal output is modelled
as a list of emitted actions.  I/O that cannot influence the properties
below (colors of the help screen, logging, paging) is omitted and noted at
each definition.
-/

namespace Crossline

/-! ## C++ string-operation helpers (std::string semantics over List Char)

All call sites below use these within bounds; `std::string::substr`/`erase`
throw on a start index beyond the size, which no modelled call site does. -/

/-- `std::string::substr(pos, len)`. -/
def cppSubstr (s : List Char) (pos len : Nat) : List Char :=
  (s.drop pos).take len

/-- `std::string::erase(pos, cnt)`: removes at most `cnt` characters from
`pos` (clamped to the size, as in C++). -/
def cppErase (s : List Char) (pos cnt : Nat) : List Char :=
  s.take pos ++ s.drop (pos + cnt)

/-- `std::string::insert(pos, str)`. -/
def cppInsert (s : List Char) (pos : Nat) (t : List Char) : List Char :=
  s.take pos ++ t ++ s.drop pos

/-- `Crossline::TextCopy (dest, src, cut_beg, cut_end)` (crossline.cpp):
`len = cut_end - cut_beg`; when positive copy `src.substr(cut_beg, len)`
(the `cut_beg == 0 && len == src.length()` fast path yields the same
value), otherwise clear `dest`. -/
def textCopy (src : List Char) (cutBeg cutEnd : Nat) : List Char :=
  if cutBeg < cutEnd then cppSubstr src cutBeg (cutEnd - cutBeg) else []

/-- `haystack.find(needle) != npos` on character lists: `needle` occurs as
a contiguous substring of `haystack` (case-sensitive, as `std::string::find`). -/
def listContains (needle : List Char) : List Char → Bool
  | [] => needle.isEmpty
  | c :: rest => needle.isPrefixOf (c :: rest) || listContains needle rest

/-- `hisSt.find(patterns) != npos`: case-sensitive substring containment,
as used by `Crossline::HistoryDump`. -/
def strContains (s pat : String) : Bool :=
  listContains pat.data s.data

/-! ## History store (HistoryClass / BaseSearchable) -/

/-- `HistoryClass::Add` (crossline.cpp): wraps the string in an item and
calls `BaseSearchable::Add`, which is an unconditional `push_back`.  No
duplicate check of any kind happens here. -/
def historyClassAdd (items : List String) (item : String) : List String :=
  items ++ [item]

/-- The history-append step of the accept path at the end of
`Crossline::ReadlineEdit` (the `read_end > 0` branch with no `choices` and
`edit_only` false): the accepted text is appended unless it equals the most
recently stored entry (`GetHistoryItem(hisNo-1)`). -/
def historyAddDedup (hist : List (List Char)) (buf : List Char) : List (List Char) :=
  match hist.getLast? with
  | some last => if buf = last then hist else hist ++ [buf]
  | none => hist ++ [buf]

/-! ## MakeIndexKeys and the match collection of Crossline::HistoryDump -/

/-- `MakeIndexKeys` (crossline.cpp): the 61 mnemonic selection keys
`1..9, a..z, A..Z`. -/
def makeIndexKeys : List Char :=
  (List.range 9).map (fun i => Char.ofNat (49 + i)) ++
  (List.range 26).map (fun i => Char.ofNat (97 + i)) ++
  (List.range 26).map (fun i => Char.ofNat (65 + i))

/-- `maxKeys = keys.size()` in `Crossline::HistoryDump`. -/
def maxKeys : Nat := makeIndexKeys.length

/-- The collection loop of `Crossline::HistoryDump`: scan the (index, text)
pairs in scan order, skip empty entries, skip entries that do not contain
`patterns` as a substring, with `noRepeats` skip entries whose text was
already kept (`matched.count(hisSt)`), record `matched[hisSt] = ind` and
push the text, and break once `++count > maxKeys`.  Returns the `matched`
association (newest assignment first, as the C++ `std::map` overwrite) and
the `patMatches` list in discovery order. -/
def historyDumpScan (patterns : String) (noRepeats : Bool) :
    List (Nat × String) → Nat → List (String × Nat) → List String →
    (List (String × Nat) × List String)
  | [], _, matched, patMatches => (matched, patMatches)
  | (ind, hisSt) :: rest, count, matched, patMatches =>
    if hisSt.length > 0 then
      if 0 < patterns.length ∧ strContains hisSt patterns = false then
        historyDumpScan patterns noRepeats rest count matched patMatches
      else if noRepeats = true ∧ (matched.lookup hisSt).isSome = true then
        historyDumpScan patterns noRepeats rest count matched patMatches
      else
        let matched' := (hisSt, ind) :: matched
        let patMatches' := patMatches ++ [hisSt]
        if count + 1 > maxKeys then (matched', patMatches')
        else historyDumpScan patterns noRepeats rest (count + 1) matched' patMatches'
    else historyDumpScan patterns noRepeats rest count matched patMatches

/-- The scan order of `Crossline::HistoryDump`: `ind = i` when `forward`,
else `ind = noHist - 1 - i` (newest entry, stored last, visited first). -/
def historyDumpOrder (hist : List String) (forward : Bool) : List (Nat × String) :=
  if forward then hist.enum else hist.enum.reverse

/-- The texts `Crossline::HistoryDump` displays (and offers for selection),
in display order: the collected matches truncated to
`noShow = min(count, maxNo)` when `maxNo > 0`. -/
def historyDumpShown (hist : List String) (patterns : String) (noRepeats : Bool)
    (maxNo : Int) (forward : Bool) : List String :=
  let res := historyDumpScan patterns noRepeats (historyDumpOrder hist forward) 0 [] []
  let count := res.2.length
  let noShow := if 0 < maxNo ∧ maxNo < (count : Int) then maxNo.toNat else count
  res.2.take noShow

/-- The `matches` map built by the display loop of `Crossline::HistoryDump`:
the i-th shown text gets mnemonic key `keys[i]` mapped to `matched[text]`,
in display order. -/
def historyDumpMatches (hist : List String) (patterns : String) (noRepeats : Bool)
    (maxNo : Int) (forward : Bool) : List (String × Nat) :=
  let res := historyDumpScan patterns noRepeats (historyDumpOrder hist forward) 0 [] []
  let shown := historyDumpShown hist patterns noRepeats maxNo forward
  (shown.enum).map (fun p =>
    (String.singleton (makeIndexKeys.getD p.1 ' '), ((res.1).lookup p.2).getD 0))

/-! ## CompleterClass::FindCommon -/

/-- The inner `while` loop of `CompleterClass::FindCommon`: while `len > 0`
and `common.find(word) == npos` (i.e. `word` is not a substring of
`common`), decrement `len` and `word.pop_back()`. -/
def findCommonShrink (common : List Char) : List Char → Nat → Nat
  | _, 0 => 0
  | word, n + 1 =>
    if listContains word common then n + 1
    else findCommonShrink common word.dropLast n

/-- The `for` loop of `CompleterClass::FindCommon` over `items[1..]`, with
loop guard `len > 0`: take `word = items[i].word.substr(0, len)`, clamp
`len` to `word.length()`, run the shrink loop, then truncate `common` to
the surviving `len` (or clear it). -/
def findCommonLoop : List (List Char × Bool) → List Char → Nat → List Char
  | [], common, _ => common
  | it :: rest, common, len =>
    if 0 < len then
      let word := it.1.take len
      let len1 := if word.length < len then word.length else len
      let len2 := findCommonShrink common word len1
      let common' := if 0 < len2 then common.take len2 else []
      findCommonLoop rest common' len2
    else common

/-- `CompleterClass::FindCommon` (crossline.cpp): each item is its word
together with its `NeedQuotes()` flag.  With no items the result is empty;
`common` starts as the first word, quoted (`'"' + word + '"'`) when it is
the only item and needs quotes; then the loop above runs over the rest. -/
def findCommon (items : List (List Char × Bool)) : List Char :=
  match items with
  | [] => []
  | it0 :: rest =>
    let common := it0.1
    let len := common.length
    let common :=
      if rest.length = 0 ∧ it0.2 then Char.ofNat 34 :: common ++ [Char.ofNat 34]
      else common
    findCommonLoop rest common len

/-- Longest common prefix of two character lists. -/
def commonPrefix2 : List Char → List Char → List Char
  | a :: as, b :: bs => if a = b then a :: commonPrefix2 as bs else []
  | _, _ => []

/-- Modelled from the spec: the longest string that is a prefix of every
candidate word of the completion set (the spec's description of the
common-prefix computation, used to compare against `findCommon`). -/
def specCommonPrefix : List (List Char) → List Char
  | [] => []
  | w :: ws => ws.foldl commonPrefix2 w

/-! ## Key decoder (Linux path of crossline.cpp)

Key codes are built by the source's macros; the input byte stream is a
`List Nat`.  `TerminalClass::RawGetChar` returns the `\0`-initialised local
when `read` yields nothing, so reading from an exhausted stream gives 0. -/

/-- `Crossline::Getch` via `TerminalClass::GetChar` on a byte stream
(push-back buffer empty): pop the next byte, or 0 at end of input. -/
def getch : List Nat → Nat × List Nat
  | [] => (0, [])
  | c :: rest => (c, rest)

def KEY_ESC : Nat := 27

/-- `ALT_KEY(key) = key + ((KEY_ESC+1)<<8)`. -/
def ALT_KEY (k : Nat) : Nat := k + (KEY_ESC + 1) * 256

/-- `ESC_KEY3(ch) = (KEY_ESC<<8) + ch`. -/
def ESC_KEY3 (c : Nat) : Nat := KEY_ESC * 256 + c

/-- `ESC_KEY4(ch1,ch2) = (KEY_ESC<<8) + (ch1<<16) + ch2`. -/
def ESC_KEY4 (c1 c2 : Nat) : Nat := KEY_ESC * 256 + c1 * 65536 + c2

/-- `ESC_KEY6(ch1,ch2,ch3) = (KEY_ESC<<8) + (ch1<<16) + (ch2<<24) + ch3`. -/
def ESC_KEY6 (c1 c2 c3 : Nat) : Nat :=
  KEY_ESC * 256 + c1 * 65536 + c2 * 16777216 + c3

/-- `ESC_OKEY(ch) = (KEY_ESC<<8) + ('O'<<16) + ch`. -/
def ESC_OKEY (c : Nat) : Nat := KEY_ESC * 256 + 79 * 65536 + c

/- The Linux key-code constants of the anonymous enum in crossline.cpp. -/
def KEY_BACKSPACE : Nat := 8
def KEY_DEL2 : Nat := 127
def KEY_INSERT : Nat := ESC_KEY4 50 126
def KEY_DEL : Nat := ESC_KEY4 51 126
def KEY_HOME : Nat := ESC_KEY4 49 126
def KEY_END : Nat := ESC_KEY4 52 126
def KEY_UP : Nat := ESC_KEY3 65
def KEY_DOWN : Nat := ESC_KEY3 66
def KEY_LEFT : Nat := ESC_KEY3 68
def KEY_RIGHT : Nat := ESC_KEY3 67
def KEY_HOME2 : Nat := ESC_KEY3 72
def KEY_END2 : Nat := ESC_KEY3 70
def KEY_CTRL_UP : Nat := ESC_KEY6 49 53 65
def KEY_CTRL_DOWN : Nat := ESC_KEY6 49 53 66
def KEY_CTRL_LEFT : Nat := ESC_KEY6 49 53 68
def KEY_CTRL_RIGHT : Nat := ESC_KEY6 49 53 67
def KEY_CTRL_UP2 : Nat := ESC_OKEY 65
def KEY_CTRL_DOWN2 : Nat := ESC_OKEY 66
def KEY_CTRL_LEFT2 : Nat := ESC_OKEY 68
def KEY_CTRL_RIGHT2 : Nat := ESC_OKEY 67
def KEY_ALT_DEL : Nat := ESC_KEY6 51 51 126
def KEY_ALT_HOME : Nat := ESC_KEY6 49 51 72
def KEY_ALT_END : Nat := ESC_KEY6 49 51 70
def KEY_ALT_UP : Nat := ESC_KEY6 49 51 65
def KEY_ALT_DOWN : Nat := ESC_KEY6 49 51 66
def KEY_ALT_LEFT : Nat := ESC_KEY6 49 51 68
def KEY_ALT_RIGHT : Nat := ESC_KEY6 49 51 67
def KEY_ALT_BACKSPACE : Nat := ALT_KEY KEY_DEL2
def KEY_F1 : Nat := ESC_OKEY 80
def KEY_F2 : Nat := ESC_OKEY 81
def KEY_F3 : Nat := ESC_OKEY 82
def KEY_F4 : Nat := ESC_OKEY 83
def KEY_F1_2 : Nat := ESC_KEY4 91 65
def KEY_F2_2 : Nat := ESC_KEY4 91 66
def KEY_F3_2 : Nat := ESC_KEY4 91 67
def KEY_F4_2 : Nat := ESC_KEY4 91 68

/-- `crossline_key_esc2alt`: convert ESC+Key to the Alt-variant. -/
def crossline_key_esc2alt (ch : Nat) : Nat :=
  if ch = KEY_DEL then KEY_ALT_DEL
  else if ch = KEY_HOME then KEY_ALT_HOME
  else if ch = KEY_END then KEY_ALT_END
  else if ch = KEY_UP then KEY_ALT_UP
  else if ch = KEY_DOWN then KEY_ALT_DOWN
  else if ch = KEY_LEFT then KEY_ALT_LEFT
  else if ch = KEY_RIGHT then KEY_ALT_RIGHT
  else if ch = KEY_BACKSPACE then KEY_ALT_BACKSPACE
  else ch

/-- `crossline_key_mapping`: remap duplicate platform codes to the
canonical key (Linux arm of the `#ifdef`). -/
def crossline_key_mapping (ch : Nat) : Nat :=
  if ch = KEY_HOME2 then KEY_HOME
  else if ch = KEY_END2 then KEY_END
  else if ch = KEY_CTRL_UP2 then KEY_CTRL_UP
  else if ch = KEY_CTRL_DOWN2 then KEY_CTRL_DOWN
  else if ch = KEY_CTRL_LEFT2 then KEY_CTRL_LEFT
  else if ch = KEY_CTRL_RIGHT2 then KEY_CTRL_RIGHT
  else if ch = KEY_F1_2 then KEY_F1
  else if ch = KEY_F2_2 then KEY_F2
  else if ch = KEY_F3_2 then KEY_F3
  else if ch = KEY_F4_2 then KEY_F4
  else if ch = KEY_DEL2 then KEY_BACKSPACE
  else ch

/-- `crossline_get_esckey` (Linux): resolve the bytes following an ESC.
`ch0 = 0` means the first byte still has to be read.  A `CSI digit ;`
with a modifier other than `'5'`/`'3'` returns 0; a `CSI digit` followed by
anything other than `'~'`/`';'` leaves `ch` as that digit; any first byte
other than `'['`/`'O'` is the Alt-key catch-all. -/
def crossline_get_esckey (ch0 : Nat) (s : List Nat) : Nat × List Nat :=
  let (ch, s) := if ch0 = 0 then getch s else (ch0, s)
  if ch = 91 then
    let (ch, s) := getch s
    if 48 ≤ ch ∧ ch ≤ 54 then
      let (ch2, s) := getch s
      if ch2 = 126 then (ESC_KEY4 ch ch2, s)
      else if ch2 = 59 then
        let (ch2, s) := getch s
        if ch2 ≠ 53 ∧ ch2 ≠ 51 then (0, s)
        else
          let (ch3, s) := getch s
          (ESC_KEY6 ch ch2 ch3, s)
      else (ch, s)
    else if ch = 91 then
      let (c, s) := getch s
      (ESC_KEY4 91 c, s)
    else (ESC_KEY3 ch, s)
  else if ch = 79 then
    let (c, s) := getch s
    (ESC_OKEY c, s)
  else (ALT_KEY ch, s)

/-- `crossline_getkey` (Linux): read one key; `is_esc` records whether the
first byte was ESC.  With `check_esc`, a second ESC enters the ESC+Key
(Alt-promotion) path, otherwise the remaining bytes go through
`crossline_get_esckey`. -/
def crossline_getkey (checkEsc : Bool) (s : List Nat) : Nat × Bool × List Nat :=
  let (ch, s) := getch s
  let isEsc := ch = KEY_ESC
  if checkEsc ∧ isEsc then
    let (ch2, s) := getch s
    if ch2 = KEY_ESC then
      let (k, s) := crossline_get_esckey 0 s
      let k := crossline_key_mapping k
      (crossline_key_esc2alt k, isEsc, s)
    else
      let (k, s) := crossline_get_esckey ch2 s
      (k, isEsc, s)
  else (ch, isEsc, s)

/-! ## Screen renderer: Crossline::Refresh (Linux, logging omitted)

Terminal output is modelled as the list of emitted actions.  `Refresh`
only ever calls the relative `CursorMove`; there is no absolute
`CursorSet` action in its output alphabet because the source never uses
one there. -/

inductive TermAct where
  | move (rowOff colOff : Int)
  | print (s : List Char)
  | showCursor (b : Bool)
  | colorSet (c : Nat)
  deriving DecidableEq

inductive UpdateType where
  | moveCursor
  | drawFromPos
  | drawAll
  deriving DecidableEq

structure RefreshOut where
  buf : List Char
  pos : Nat
  num : Nat
  acts : List TermAct
  deriving DecidableEq

/-- The buffer adjustment at the head of the redraw branch of
`Crossline::Refresh` (lines 1320-1326): truncate `buf` to `new_num` when
shorter, clear it when `new_num = 0`. -/
def refreshBufTrunc (buf : List Char) (newNum : Nat) : List Char :=
  if 0 < newNum then (if newNum < buf.length then buf.take newNum else buf)
  else []

/-- `Crossline::Refresh` (Linux: `s_crossline_win = 0`, so no screen-size
requery; logging and `last_print_num` omitted).  `promptColor` is the
configured prompt color.  The `MOVE_CURSOR` branch emits one relative
cursor move from the row/column difference; the redraw branches build
`writeBuf` with padding, blank-fill of newly vacated wrapped rows, and the
final relative repositioning move, exactly as the source. -/
def refresh (prompt buf : List Char) (pCurPos pCurNum newPos newNum : Nat)
    (updateType : UpdateType) (drawPosIn : Nat) (cols : Nat)
    (promptColor : Nat) : RefreshOut :=
  let prLen := prompt.length
  let drawPos := if updateType = UpdateType.drawAll then 0 else drawPosIn
  match updateType with
  | UpdateType.moveCursor =>
    let posRow : Int := (((newPos + prLen) / cols : Nat) : Int) -
      (((pCurPos + prLen) / cols : Nat) : Int)
    let posCol : Int := (((newPos + prLen) % cols : Nat) : Int) -
      (((pCurPos + prLen) % cols : Nat) : Int)
    { buf := buf, pos := newPos, num := newNum, acts := [TermAct.move posRow posCol] }
  | ut =>
    let cursCols : Nat := (prLen + pCurPos) % cols
    let buf1 := refreshBufTrunc buf newNum
    let (preActs, writeBuf0, lenWritten0) :=
      if ut = UpdateType.drawFromPos then
        let writeBuf := buf1.drop drawPos
        let writeCol := (prLen + drawPos) % cols
        let rowOff : Int := Int.tdiv ((drawPos : Int) + (prLen : Int) - 1) (cols : Int) -
          (((pCurPos + prLen) / cols : Nat) : Int)
        ([TermAct.move rowOff (((writeCol : Nat) : Int) - ((cursCols : Nat) : Int))],
         writeBuf, drawPos)
      else
        let posRow := (pCurPos + prLen) / cols
        ([TermAct.move (-(posRow : Int)) (-(cursCols : Int)),
          TermAct.colorSet promptColor, TermAct.print prompt, TermAct.colorSet 0],
         buf1, 0)
    let lenWritten := lenWritten0 + writeBuf0.length
    let writeBuf1 := writeBuf0 ++
      (if 0 < newNum ∧ (newNum + prLen) % cols = 0 then [Char.ofNat 10] else [])
    let (writeBuf2, lenWritten2) :=
      if newNum < pCurNum then
        (writeBuf1 ++ List.replicate (pCurNum - newNum) ' ',
         lenWritten + (pCurNum - newNum))
      else (writeBuf1, lenWritten)
    let oldRows := (pCurNum + prLen) / cols
    let newRows := (lenWritten2 + prLen) / cols
    let (writeBuf3, lenWritten3) :=
      if oldRows < newRows then
        let newCols := lenWritten2 % cols
        let blanks := cols - newCols
        (writeBuf2 ++ List.replicate blanks ' ', lenWritten2 + blanks)
      else (writeBuf2, lenWritten2)
    let writeBuf4 := writeBuf3 ++
      (if newNum < pCurNum ∧ (pCurNum + prLen) % cols = 0 then [Char.ofNat 10] else [])
    let nowRow : Int := Int.tdiv ((lenWritten3 : Int) + (prLen : Int) - 1) (cols : Int)
    let posRow2 : Int := (((newPos + prLen) / cols : Nat) : Int)
    let rMove : Int := max 0 (nowRow - posRow2)
    let curCPos := (lenWritten3 + prLen) % cols
    let reqCPos := (newPos + prLen) % cols
    let cMove : Int := ((reqCPos : Nat) : Int) - ((curCPos : Nat) : Int)
    { buf := buf1, pos := newPos, num := newNum,
      acts := [TermAct.showCursor false] ++ preActs ++
        [TermAct.print writeBuf4, TermAct.move (-rMove) cMove, TermAct.showCursor true] }

/-- `row(p) = p / cols` of the spec's row/column math. -/
def rowOf (p cols : Nat) : Nat := p / cols

/-- `col(p) = p % cols` of the spec's row/column math. -/
def colOf (p cols : Nat) : Nat := p % cols

/-! ## TerminalClass push-back buffer -/

/-- `BufLen = 32`. -/
def termBufLen : Nat := 32

/-- State of the `TerminalClass` push-back buffer: `curBuf` starts at -1;
`cells` records every `buffer[i] = c` store performed, newest first. -/
structure TermState where
  curBuf : Int
  cells : List (Int × Int)
  deriving DecidableEq

/-- `TerminalClass::TerminalClass`: `curBuf = -1`. -/
def termInit : TermState := { curBuf := -1, cells := [] }

/-- `TerminalClass::PutChar`: `if (curBuf < BufLen) buffer[++curBuf] = c`.
The store index used is `curBuf + 1`. -/
def putChar (s : TermState) (c : Int) : TermState :=
  if s.curBuf < (termBufLen : Int) then
    { curBuf := s.curBuf + 1, cells := (s.curBuf + 1, c) :: s.cells }
  else s

/-- The array index `PutChar` would store to next, when its guard passes. -/
def putCharWriteIndex (s : TermState) : Option Int :=
  if s.curBuf < (termBufLen : Int) then some (s.curBuf + 1) else none

/-- `TerminalClass::GetChar` restricted to the push-back path:
`if (curBuf >= 0) return buffer[curBuf--]`; otherwise raw input is read
(modelled as `none` here). -/
def getCharPushback (s : TermState) : Option Int × TermState :=
  if 0 ≤ s.curBuf then
    ((s.cells.lookup s.curBuf), { s with curBuf := s.curBuf - 1 })
  else (none, s)

/-! ## Read loop: Crossline::ReadlineEdit as a step machine

The machine models the normal interactive read (`edit_only = false`,
`choices` empty, `clear = false`, the default `allowEscCombo = true`), for
the dispatch cases listed in `Key` below.  History browsing (Up/Down,
PgUp/PgDn), completion (Tab) and the nested `HistorySearch` reads are
interactive sub-modes not entered by these keys; the Ctrl-R/Ctrl-S/F4
handler's data flow is modelled separately in `ctrlRSearchHandler`.  Each
constructor names its `switch (ch)` case; buffer/cursor effects are routed
through the state effects of `Crossline::Refresh`: a `MOVE_CURSOR` refresh
assigns `pos`/`num` only, a redraw refresh also applies
`refreshBufTrunc`. -/

inductive Key where
  /-- Default branch with `is_esc` false: a directly typed byte `c`
  (inserted when `isprint(c)`). -/
  | char (c : Nat)
  /-- Default branch with `is_esc` true: an escape-originated code `c`
  matched by no `case` label. -/
  | escUnmatched (c : Nat)
  /-- `KEY_ENTER` / `KEY_ENTER2`. -/
  | enter
  /-- `CTRL_KEY('C')`. -/
  | ctrlC
  /-- `CTRL_KEY('G')`. -/
  | ctrlG
  /-- `CTRL_KEY('D')` (delete under cursor, or EOF on an empty line). -/
  | ctrlD
  /-- `KEY_DEL` (delete under cursor; no EOF case). -/
  | keyDel
  /-- `KEY_BACKSPACE` (also `KEY_DEL2` after `crossline_key_mapping`). -/
  | backspace
  /-- `KEY_LEFT` / `CTRL_KEY('B')`. -/
  | left
  /-- `KEY_RIGHT` / `CTRL_KEY('F')`. -/
  | right
  /-- `CTRL_KEY('A')` / `KEY_HOME`. -/
  | home
  /-- `CTRL_KEY('E')` / `KEY_END`. -/
  | endKey
  /-- `CTRL_KEY('K')` / `KEY_CTRL_END` / `KEY_ALT_END`: cut to end. -/
  | ctrlK
  /-- `CTRL_KEY('U')` / `KEY_CTRL_HOME` / `KEY_ALT_HOME`: cut to start. -/
  | ctrlU
  /-- `CTRL_KEY('X')`: cut whole line (falls through to revert). -/
  | ctrlX
  /-- `ALT_KEY('r')` / `ALT_KEY('R')`: revert line. -/
  | altR
  /-- `CTRL_KEY('Y')` / `CTRL_KEY('V')` / `KEY_INSERT`: paste. -/
  | paste
  /-- `KEY_F3` (clear history) together with the confirmation byte the
  handler reads with `Getch()`. -/
  | f3 (confirm : Nat)
  deriving DecidableEq

/-- C `isprint`: printable ASCII, 0x20..0x7e. -/
def isprintCpp (c : Nat) : Bool := 32 ≤ c && c ≤ 126

/-- The loop state of `Crossline::ReadlineEdit`: buffer, cursor `pos`,
displayed length `num`, the clip register, the history store, the
start-of-read `has_his` flag, the `allowEscCombo` option, and `read_end`
(0 continue, 1 accept, -1 abort). -/
structure EditState where
  buf : List Char
  pos : Nat
  num : Nat
  clip : List Char
  history : List (List Char)
  hasHis : Bool
  allowEscCombo : Bool
  readEnd : Int
  deriving DecidableEq

/-- Entry of `Crossline::ReadlineEdit` with `has_input = false`: empty
buffer, `pos = num = 0`, `has_his` from the store size; the initial
`RefreshFull` leaves this state unchanged. -/
def initEdit (hist : List (List Char)) : EditState :=
  { buf := [], pos := 0, num := 0, clip := [], history := hist,
    hasHis := 0 < hist.length, allowEscCombo := true, readEnd := 0 }

/-- One iteration of the key dispatch `switch` of `Crossline::ReadlineEdit`
(normal read: `edit_only = false`, no `choices`).  Comments quote the
source's `Refresh` calls; `Refresh(.., p, n, MOVE_CURSOR)` assigns
`pos := p, num := n`, and a redraw also truncates via `refreshBufTrunc`. -/
def stepKey (s : EditState) (k : Key) : EditState :=
  match k with
  | Key.char c =>
    if isprintCpp c then
      -- buf.insert(pos, 1, ch); Refresh(.., pos+1, num+1, DRAW_*)
      let buf := cppInsert s.buf s.pos [Char.ofNat c]
      { s with buf := refreshBufTrunc buf (s.num + 1), pos := s.pos + 1, num := s.num + 1 }
    else s
  | Key.escUnmatched _ =>
    -- unmapped escape key: ignored, unless ESC combos are disabled,
    -- in which case the line is abandoned (read_end = -1)
    if s.allowEscCombo then s else { s with readEnd := -1 }
  | Key.enter =>
    -- Refresh(.., num, num, MOVE_CURSOR); read_end = 1
    { s with pos := s.num, readEnd := 1 }
  | Key.ctrlC =>
    -- Refresh(.., num, num, MOVE_CURSOR); num = pos = 0; read_end = -1
    { s with pos := 0, num := 0, readEnd := -1 }
  | Key.ctrlG =>
    { s with pos := 0, num := 0, readEnd := -1 }
  | Key.ctrlD =>
    if s.pos < s.num then
      -- buf.erase(pos, 1); Refresh(.., pos, num-1, DRAW_ALL)
      { s with buf := refreshBufTrunc (cppErase s.buf s.pos 1) (s.num - 1),
               num := s.num - 1 }
    else if s.num = 0 then { s with readEnd := -1 }
    else s
  | Key.keyDel =>
    if s.pos < s.num then
      { s with buf := refreshBufTrunc (cppErase s.buf s.pos 1) (s.num - 1),
               num := s.num - 1 }
    else s
  | Key.backspace =>
    if 0 < s.pos then
      -- buf.erase(pos-1, 1); Refresh(.., pos-1, num-1, DRAW_ALL)
      { s with buf := refreshBufTrunc (cppErase s.buf (s.pos - 1) 1) (s.num - 1),
               pos := s.pos - 1, num := s.num - 1 }
    else s
  | Key.left =>
    if 0 < s.pos then { s with pos := s.pos - 1 } else s
  | Key.right =>
    if s.pos < s.num then { s with pos := s.pos + 1 } else s
  | Key.home => { s with pos := 0 }
  | Key.endKey => { s with pos := s.num }
  | Key.ctrlK =>
    -- TextCopy(clip, buf, pos, num); Refresh(.., pos, pos, DRAW_ALL)
    { s with clip := textCopy s.buf s.pos s.num,
             buf := refreshBufTrunc s.buf s.pos, num := s.pos }
  | Key.ctrlU =>
    -- TextCopy(clip, buf, 0, pos); buf.erase(0, num-pos);
    -- Refresh(.., 0, num-pos, DRAW_ALL)
    { s with clip := textCopy s.buf 0 s.pos,
             buf := refreshBufTrunc (cppErase s.buf 0 (s.num - s.pos)) (s.num - s.pos),
             pos := 0, num := s.num - s.pos }
  | Key.ctrlX =>
    -- TextCopy(clip, buf, 0, num); fall through: Refresh(.., 0, 0, DRAW_ALL)
    { s with clip := textCopy s.buf 0 s.num, buf := [], pos := 0, num := 0 }
  | Key.altR =>
    { s with buf := [], pos := 0, num := 0 }
  | Key.paste =>
    -- buf.insert(pos, clip); Refresh(.., pos+len, num+len, DRAW_ALL)
    let clipLen := s.clip.length
    { s with buf := refreshBufTrunc (cppInsert s.buf s.pos s.clip) (s.num + clipLen),
             pos := s.pos + clipLen, num := s.num + clipLen }
  | Key.f3 confirm =>
    -- if (edit_only || !has_his) break; if ('y' == Getch()) history->Clear()
    if s.hasHis then
      (if confirm = 121 then { s with history := [] } else s)
    else s

/-- The `do .. while (!read_end)` loop of `Crossline::ReadlineEdit`: each
key is dispatched, then the loop exits once `read_end` is set. -/
def runKeys (s : EditState) : List Key → EditState
  | [] => s
  | k :: ks =>
    let s' := stepKey s k
    if s'.readEnd ≠ 0 then s' else runKeys s' ks

/-- Result of a read operation: the final buffer, the accepted flag the
function returns, and the history store afterwards. -/
structure ReadResult where
  buf : List Char
  accepted : Bool
  history : List (List Char)
  deriving DecidableEq

/-- Lines 2228-2262 of `Crossline::ReadlineEdit` for a normal read
(`choices` empty, `edit_only` false, `clear` false): on `read_end > 0`
append to history via `historyAddDedup` when `num > 0` and return
`buf.length() > 0`; otherwise return false. -/
def finalizeRead (s : EditState) : ReadResult :=
  if 0 < s.readEnd then
    { buf := s.buf, accepted := 0 < s.buf.length,
      history := if 0 < s.num then historyAddDedup s.history s.buf else s.history }
  else
    { buf := s.buf, accepted := false, history := s.history }

/-- A whole normal read operation: start from an empty buffer over `hist`,
consume `keys`, finalize. -/
def readlineRun (hist : List (List Char)) (keys : List Key) : ReadResult :=
  finalizeRead (runKeys (initEdit hist) keys)

/-- The keys whose dispatch can modify the history store during editing:
only a confirmed F3 clear. -/
def clearsHistory : Key → Bool
  | Key.f3 confirm => confirm = 121
  | _ => false

/-- The `CTRL_KEY('R') / CTRL_KEY('S') / KEY_F4` case of
`Crossline::ReadlineEdit` (lines 2111-2131), as a function of the buffer
and the `HistorySearch` outcome `res` (chosen history id and entry text,
id < 0 when the search was cancelled).  The source assigns
`buf = res.second` and then immediately `buf = input` (the copy of the
pre-search buffer), so the first assignment is dead. -/
def ctrlRSearchHandler (buf : String) (res : Int × String) : String :=
  let input := buf
  if 0 ≤ res.1 then
    let _bufDead := res.2
    let buf := input
    buf
  else buf

/-! ## Supporting lemmas -/

theorem lookup_isSome_cons (k : String) (v : Nat) (m : List (String × Nat)) (x : String)
    (h : (m.lookup x).isSome = true) : (((k, v) :: m).lookup x).isSome = true := by
  rw [List.lookup_cons]
  split <;> simp [h]

theorem historyDumpScan_nodup (patterns : String) (scan : List (Nat × String))
    (count : Nat) (matched : List (String × Nat)) (acc : List String)
    (hnd : acc.Nodup) (hmem : ∀ x ∈ acc, (matched.lookup x).isSome = true) :
    (historyDumpScan patterns true scan count matched acc).2.Nodup := by
  induction scan generalizing count matched acc with
  | nil => simpa [historyDumpScan] using hnd
  | cons p rest ih =>
    obtain ⟨ind, hisSt⟩ := p
    rw [historyDumpScan]
    have hkeep : ¬(true = true ∧ (matched.lookup hisSt).isSome = true) →
        (acc ++ [hisSt]).Nodup ∧
        (∀ x ∈ acc ++ [hisSt], ((((hisSt, ind) :: matched)).lookup x).isSome = true) := by
      intro h3
      have hlk : (matched.lookup hisSt).isSome = false := by
        by_contra hcon
        exact h3 ⟨rfl, by simpa using hcon⟩
      have hnotin : hisSt ∉ acc := by
        intro hx
        rw [hmem hisSt hx] at hlk
        cases hlk
      have hdisj : acc.Disjoint [hisSt] := by
        intro a ha hb
        have hab : a = hisSt := by simpa using hb
        subst hab
        exact hnotin ha
      refine ⟨by rw [List.nodup_append]; exact ⟨hnd, List.nodup_singleton _, hdisj⟩, ?_⟩
      intro x hx
      rcases List.mem_append.mp hx with hx | hx
      · exact lookup_isSome_cons _ _ _ _ (hmem x hx)
      · have hxh : x = hisSt := by simpa using hx
        subst hxh
        rw [List.lookup_cons]
        simp
    split_ifs with h1 h2 h3 h4
    · exact ih count matched acc hnd hmem
    · exact ih count matched acc hnd hmem
    · exact (hkeep h3).1
    · exact ih (count + 1) _ _ (hkeep h3).1 (hkeep h3).2
    · exact ih count matched acc hnd hmem

theorem historyDumpScan_matches (patterns : String) (noRepeats : Bool)
    (scan : List (Nat × String)) (count : Nat) (matched : List (String × Nat))
    (acc : List String)
    (hacc : ∀ x ∈ acc, patterns.length = 0 ∨ strContains x patterns = true) :
    ∀ x ∈ (historyDumpScan patterns noRepeats scan count matched acc).2,
      patterns.length = 0 ∨ strContains x patterns = true := by
  induction scan generalizing count matched acc with
  | nil => simpa [historyDumpScan] using hacc
  | cons p rest ih =>
    obtain ⟨ind, hisSt⟩ := p
    rw [historyDumpScan]
    have hkeep : ¬(0 < patterns.length ∧ strContains hisSt patterns = false) →
        ∀ x ∈ acc ++ [hisSt], patterns.length = 0 ∨ strContains x patterns = true := by
      intro h2
      have hmatch : patterns.length = 0 ∨ strContains hisSt patterns = true := by
        by_cases hp : 0 < patterns.length
        · right
          by_contra hcon
          exact h2 ⟨hp, by simpa using hcon⟩
        · left; omega
      intro x hx
      rcases List.mem_append.mp hx with hx | hx
      · exact hacc x hx
      · have hxh : x = hisSt := by simpa using hx
        subst hxh; exact hmatch
    split_ifs with h1 h2 h3 h4
    · exact ih count matched acc hacc
    · exact ih count matched acc hacc
    · exact hkeep h2
    · exact ih (count + 1) _ _ (hkeep h2)
    · exact ih count matched acc hacc

theorem historyDumpShown_nodup (hist : List String) (patterns : String)
    (maxNo : Int) (forward : Bool) :
    (historyDumpShown hist patterns true maxNo forward).Nodup := by
  have h := historyDumpScan_nodup patterns (historyDumpOrder hist forward) 0 [] []
    (List.nodup_nil) (by simp)
  exact List.Sublist.nodup (List.take_sublist _ _) h

theorem historyDumpShown_matches (hist : List String) (patterns : String)
    (noRepeats : Bool) (maxNo : Int) (forward : Bool) :
    (historyDumpShown hist patterns noRepeats maxNo forward).all
      (fun x => decide (patterns.length = 0) || strContains x patterns) = true := by
  rw [List.all_eq_true]
  intro x hx
  have hm := historyDumpScan_matches patterns noRepeats (historyDumpOrder hist forward)
    0 [] [] (by simp) x (List.mem_of_mem_take hx)
  rcases hm with hm | hm <;> simp [hm]

theorem stepKey_history (s : EditState) (k : Key) (hk : clearsHistory k = false) :
    (stepKey s k).history = s.history := by
  cases k with
  | f3 confirm =>
    simp only [clearsHistory, decide_eq_false_iff_not] at hk
    by_cases h1 : s.hasHis = true
    · by_cases h2 : confirm = 121
      · exact absurd h2 hk
      · simp [stepKey, h1, h2]
    · simp [stepKey, h1]
  | _ =>
    first
    | rfl
    | (simp only [stepKey]; split_ifs <;> rfl)

theorem runKeys_history (s : EditState) (ks : List Key)
    (hks : ∀ k ∈ ks, clearsHistory k = false) :
    (runKeys s ks).history = s.history := by
  induction ks generalizing s with
  | nil => rfl
  | cons k ks ih =>
    have hk := hks k (by simp)
    have hrest : ∀ k' ∈ ks, clearsHistory k' = false := fun k' h' => hks k' (by simp [h'])
    rw [runKeys]
    split_ifs with hre
    · exact stepKey_history s k hk
    · rw [ih _ hrest, stepKey_history s k hk]

theorem runKeys_append (s : EditState) (as bs : List Key)
    (h : (runKeys s as).readEnd = 0) :
    runKeys s (as ++ bs) = runKeys (runKeys s as) bs := by
  induction as generalizing s with
  | nil => rfl
  | cons a as ih =>
    have h' := h
    rw [runKeys] at h'
    by_cases hre : (stepKey s a).readEnd ≠ 0
    · rw [if_pos hre] at h'
      exact absurd h' hre
    · rw [if_neg hre] at h'
      rw [List.cons_append, runKeys, if_neg hre, runKeys, if_neg hre]
      exact ih _ h'

/-! ## Claim theorems -/

/-- Claim C1 (code bug): the `Ctrl-R`/`Ctrl-S`/`F4` history-search case of
`Crossline::ReadlineEdit` overwrites the chosen entry with the saved
pre-search input (`buf = res.second; buf = input;`), so with pre-search
buffer "al" and a completed search choosing entry "alpha" the buffer stays
"al" instead of becoming the chosen entry. -/
theorem C1_ctrlR_buffer_reverts :
    ctrlRSearchHandler "al" (0, "alpha") = "al" ∧ ("al" : String) ≠ "alpha" := by
  decide

/-- Claim C2 counterexample: backward search with empty pattern and dedup
over the store `["a","b","a","c"]` (newest last) yields the matches in the
order `c, a, b`, not `c, b, a` as the claim states. -/
theorem C2_counterexample :
    historyDumpShown ["a", "b", "a", "c"] "" true 20 false = ["c", "a", "b"] ∧
    historyDumpShown ["a", "b", "a", "c"] "" true 20 false ≠ ["c", "b", "a"] := by
  decide

/-- Claim C2 (amended): the backward scan visits entries newest-to-oldest
and keeps each surviving text at its first occurrence in scan order, so
the store `["a","b","a","c"]` gives `c, a, b` backward and `a, b, c`
forward, with mnemonic keys `1, 2, 3` mapping to history indices 3, 2, 1;
in general the dedup search never repeats a text and keeps only
case-sensitive substring matches of the pattern. -/
theorem C2_amended_theorem :
    historyDumpShown ["a", "b", "a", "c"] "" true 20 false = ["c", "a", "b"] ∧
    historyDumpShown ["a", "b", "a", "c"] "" true 20 true = ["a", "b", "c"] ∧
    historyDumpMatches ["a", "b", "a", "c"] "" true 20 false =
      [("1", 3), ("2", 2), ("3", 1)] ∧
    (∀ hist patterns maxNo forward,
      (historyDumpShown hist patterns true maxNo forward).Nodup) ∧
    (∀ hist patterns noRepeats maxNo forward,
      (historyDumpShown hist patterns noRepeats maxNo forward).all
        (fun x => decide (patterns.length = 0) || strContains x patterns) = true) := by
  refine ⟨by decide, by decide, by decide, ?_, ?_⟩
  · intro hist patterns maxNo forward
    exact historyDumpShown_nodup hist patterns maxNo forward
  · intro hist patterns noRepeats maxNo forward
    exact historyDumpShown_matches hist patterns noRepeats maxNo forward

/-- Claim C3 counterexample: `FindCommon` checks the truncated candidate
against the running value with substring `find`, not a prefix comparison,
so the candidate set `["ab", "ba"]` yields "a", which is not a prefix of
"ba" (the longest common prefix is empty). -/
theorem C3_counterexample :
    findCommon [("ab".data, false), ("ba".data, false)] = "a".data ∧
    specCommonPrefix ["ab".data, "ba".data] = [] ∧
    "a".data ≠ ([] : List Char) ∧
    "a".data.isPrefixOf "ba".data = false := by
  decide

/-- Claim C3 (amended): `FindCommon` of `["select", "set", "seven"]` is
"se", and a single candidate flagged as needing quotes yields the word
wrapped in double quotes (so `["only"]` gives `"only"` in quotes); the
result is obtained by substring-based shrinking and is not in general the
longest common prefix. -/
theorem C3_amended_theorem :
    findCommon [("select".data, false), ("set".data, false), ("seven".data, false)] =
      "se".data ∧
    findCommon [("only".data, true)] = Char.ofNat 34 :: "only".data ++ [Char.ofNat 34] ∧
    ∀ w : List Char, findCommon [(w, true)] = Char.ofNat 34 :: w ++ [Char.ofNat 34] := by
  refine ⟨by decide, by decide, ?_⟩
  intro w
  simp [findCommon, findCommonLoop]

/-- Claim C4 counterexample: a read terminated by Enter on an empty buffer
sets `read_end = 1`, yet `ReadlineEdit` returns `buf.length() > 0`, i.e.
accepted = false. -/
theorem C4_counterexample :
    (runKeys (initEdit []) [Key.enter]).readEnd = 1 ∧
    (readlineRun [] [Key.enter]).accepted = false := by
  decide

/-- Claim C4 (amended): Enter accepts with the buffer text exactly when
the buffer is nonempty: typing `s e l e c t` then Enter from an empty
buffer and empty history returns accepted = true, text "select" and
exactly the one new history entry "select", while Enter on an empty
buffer returns accepted = false for every history store. -/
theorem C4_amended_theorem :
    readlineRun [] [Key.char 115, Key.char 101, Key.char 108, Key.char 101,
      Key.char 99, Key.char 116, Key.enter] =
      { buf := "select".data, accepted := true, history := ["select".data] } ∧
    ∀ h : List (List Char), (readlineRun h [Key.enter]).accepted = false := by
  refine ⟨by decide, ?_⟩
  intro h
  rfl

/-- Claim C5 counterexample: `HistoryClass::Add` appends unconditionally,
so two consecutive appends of "a" to an empty store leave two entries,
not one. -/
theorem C5_counterexample :
    historyClassAdd (historyClassAdd [] "a") "a" = ["a", "a"] ∧
    (historyClassAdd (historyClassAdd [] "a") "a").length ≠ 1 := by
  decide

/-- Claim C5 (amended): consecutive-duplicate suppression lives in the
accept path of `ReadlineEdit`, not in `HistoryClass::Add`: the accept-path
append (`historyAddDedup`) is idempotent, so accepting the same text twice
in a row stores it once (and this never consults the search-dedup flag). -/
theorem C5_amended_theorem :
    ∀ (h : List (List Char)) (x : List Char),
      historyAddDedup (historyAddDedup h x) x = historyAddDedup h x := by
  intro h x
  cases hl : h.getLast? with
  | none => simp [historyAddDedup, hl, List.getLast?_concat]
  | some last =>
    by_cases hx : x = last
    · subst hx
      simp [historyAddDedup, hl]
    · simp [historyAddDedup, hl, hx, List.getLast?_concat]

/-- Claim C6 counterexample: pressing F3 and confirming with 'y' clears
the history store during editing, so the keystroke sequence
`F3, 'y', Ctrl-C` returns accepted = false but leaves the store empty
rather than equal to its pre-read content `["a"]`. -/
theorem C6_counterexample :
    (readlineRun [['a']] [Key.f3 121, Key.ctrlC]).accepted = false ∧
    (readlineRun [['a']] [Key.f3 121, Key.ctrlC]).history = [] ∧
    ([] : List (List Char)) ≠ [['a']] := by
  decide

/-- Claim C6 (amended): for every modelled keystroke sequence that ends in
Ctrl-C and contains no confirmed history clear (F3 followed by 'y'), the
read returns accepted = false and the history store afterwards equals the
store before the read. -/
theorem C6_amended_theorem (h : List (List Char)) (ks : List Key)
    (hclr : ∀ k ∈ ks, clearsHistory k = false)
    (hrun : (runKeys (initEdit h) ks).readEnd = 0) :
    (readlineRun h (ks ++ [Key.ctrlC])).accepted = false ∧
    (readlineRun h (ks ++ [Key.ctrlC])).history = h := by
  unfold readlineRun
  rw [runKeys_append _ _ _ hrun]
  have hhist : (runKeys (initEdit h) ks).history = h := by
    rw [runKeys_history _ _ hclr]
    rfl
  have hstep : runKeys (runKeys (initEdit h) ks) [Key.ctrlC] =
      stepKey (runKeys (initEdit h) ks) Key.ctrlC := by
    rw [runKeys]
    simp [stepKey]
  rw [hstep]
  constructor
  · simp [finalizeRead, stepKey]
  · simp [finalizeRead, stepKey, hhist]

/-- Claim C6 amended witness: typing 'a' then Ctrl-C over the store
`["x"]` aborts with accepted = false and the store unchanged. -/
theorem C6_amended_witness :
    (readlineRun [['x']] ([Key.char 97] ++ [Key.ctrlC])).accepted = false ∧
    (readlineRun [['x']] ([Key.char 97] ++ [Key.ctrlC])).history = [['x']] :=
  C6_amended_theorem [['x']] [Key.char 97] (by decide) (by decide)

/-- Claim C7 counterexample: the byte stream `ESC [ 1 ; 4 A` matches no
known escape grammar (the CSI modifier is neither '5' nor '3'), and the
decoder resolves it to key code 0, not to a literal ESC key press
(`KEY_ESC = 27`). -/
theorem C7_counterexample :
    crossline_getkey true [27, 91, 49, 59, 52, 65] = (0, true, [65]) ∧
    (0 : Nat) ≠ KEY_ESC := by
  decide

/-- Claim C7 (amended): an ESC byte followed by a sequence matching no
known grammar resolves to a benign key code (0 here) flagged as
escape-originated, never an error: the dispatcher ignores such a key and
leaves the editing state unchanged whenever ESC combos are enabled. -/
theorem C7_amended_theorem (s : EditState) (hesc : s.allowEscCombo = true) :
    crossline_getkey true [27, 91, 49, 59, 52, 65] = (0, true, [65]) ∧
    stepKey s (Key.escUnmatched 0) = s := by
  refine ⟨by decide, ?_⟩
  simp [stepKey, hesc]

/-- Claim C7 amended witness: the freshly initialised editing state has
ESC combos enabled and ignores the unmatched escape key. -/
theorem C7_amended_witness :
    crossline_getkey true [27, 91, 49, 59, 52, 65] = (0, true, [65]) ∧
    stepKey (initEdit []) (Key.escUnmatched 0) = initEdit [] :=
  C7_amended_theorem (initEdit []) (by decide)

/-- Claim C8: a `MOVE_CURSOR` refresh leaves the buffer text unchanged and
emits exactly one relative cursor move, the row/column difference
`(row(new+L) - row(old+L), col(new+L) - col(old+L))` with
`row(p) = p / cols`, `col(p) = p % cols`; no absolute positioning action
is emitted. -/
theorem C8_theorem (prompt buf : List Char)
    (pCurPos pCurNum newPos newNum drawPos cols promptColor : Nat)
    (hcols : 0 < cols) :
    refresh prompt buf pCurPos pCurNum newPos newNum UpdateType.moveCursor
        drawPos cols promptColor =
      { buf := buf, pos := newPos, num := newNum,
        acts := [TermAct.move
          ((rowOf (newPos + prompt.length) cols : Int) -
            (rowOf (pCurPos + prompt.length) cols : Int))
          ((colOf (newPos + prompt.length) cols : Int) -
            (colOf (pCurPos + prompt.length) cols : Int))] } := by
  simp [refresh, rowOf, colOf]

/-- Claim C8 witness: prompt ">", buffer "ab", cursor moved from offset 0
to offset 2 on a 20-column terminal. -/
theorem C8_witness :
    0 < 20 ∧
    refresh ['>'] ['a', 'b'] 0 2 2 2 UpdateType.moveCursor 0 20 0 =
      { buf := ['a', 'b'], pos := 2, num := 2,
        acts := [TermAct.move
          ((rowOf (2 + List.length ['>']) 20 : Int) -
            (rowOf (0 + List.length ['>']) 20 : Int))
          ((colOf (2 + List.length ['>']) 20 : Int) -
            (colOf (0 + List.length ['>']) 20 : Int))] } :=
  ⟨by decide, C8_theorem ['>'] ['a', 'b'] 0 2 2 2 0 20 0 (by decide)⟩

/-- Claim C9 (code bug): after typing "abcde", moving the cursor to offset
2 and pressing Ctrl-U, the buffer is "de" (length 2) while the length
counter `num` is 3, violating `length <= text.len()`: the handler erases
`[0, num-pos)` instead of the `[0, pos)` span it copies to the clip
register. -/
theorem C9_invariant_violation :
    (runKeys (initEdit []) [Key.char 97, Key.char 98, Key.char 99, Key.char 100,
        Key.char 101, Key.left, Key.left, Key.left, Key.ctrlU]).buf = "de".data ∧
    (runKeys (initEdit []) [Key.char 97, Key.char 98, Key.char 99, Key.char 100,
        Key.char 101, Key.left, Key.left, Key.left, Key.ctrlU]).num = 3 ∧
    ¬ ((runKeys (initEdit []) [Key.char 97, Key.char 98, Key.char 99, Key.char 100,
        Key.char 101, Key.left, Key.left, Key.left, Key.ctrlU]).num ≤
       (runKeys (initEdit []) [Key.char 97, Key.char 98, Key.char 99, Key.char 100,
        Key.char 101, Key.left, Key.left, Key.left, Key.ctrlU]).buf.length) := by
  decide

set_option maxRecDepth 8000 in
/-- Claim C10 (code bug): `PutChar`'s guard `curBuf < BufLen` still passes
when `curBuf = 31`, so the 33rd consecutive push-back stores to index 32,
one past the end of the 32-entry array (valid indices are 0..31); the
push-back order itself is LIFO. -/
theorem C10_putchar_out_of_bounds :
    ((fun s => putChar s 7)^[32] termInit).curBuf = 31 ∧
    putCharWriteIndex ((fun s => putChar s 7)^[32] termInit) = some 32 ∧
    ¬ ((32 : Int) < (termBufLen : Int)) ∧
    (getCharPushback (putChar (putChar termInit 1) 2)).1 = some 2 ∧
    (getCharPushback ((getCharPushback (putChar (putChar termInit 1) 2)).2)).1 =
      some 1 := by
  decide

end Crossline
